import Mathlib

/-!
# Verification of the Pokédex client (`src/app/page.tsx`)

A shallow embedding of the logic of the single-page Pokédex viewer:

* the page-fetch pipeline `fetchPokemon` (summary list, per-entity detail,
  per-move resolution, error handling, the duplicate-removing merge into the
  accumulated store);
* the scroll sentinel (`lastPokemonElementRef` and its intersection
  observer);
* the type-detail overlay (`fetchTypeDetails` and `TypeModal`);
* the timed card effects (`moveTypeEffects`, `handleMoveClick` with its
  uncancelled `setTimeout`);
* the top-level render branches of the component.

JavaScript sequences become Lean lists; JavaScript `Map` insertion-order
semantics are embedded as an association list with in-place value update;
`Array.prototype.sort` with the comparator `(a, b) => a.id - b.id` is
embedded as a comparison sort by ascending `id` (the exact sort algorithm
of the engine is unspecified; after deduplication all ids are distinct, so
any comparison sort yields the same list); fallible `fetch`/`json` calls
become `Option`-valued oracles, with `none` standing for the thrown error
captured by the surrounding `try`/`catch`.
-/

namespace Pokedex

/-- A type badge of an entity: `{name, url}`, from `details.types`. -/
structure TypeRef where
  name : String
  url : String
deriving DecidableEq, Repr

/-- A resolved move shown on a card: `{name, type, url}`. -/
structure PokeMove where
  name : String
  type : String
  url : String
deriving DecidableEq, Repr

/-- The `Pokemon` interface of the source: id, name, types, moves and the
two sprite URLs. -/
structure Pokemon where
  id : Int
  name : String
  types : List TypeRef
  moves : List PokeMove
  sprite : String
  shinySprite : String
deriving DecidableEq, Repr

/-- `new Map(...)`, `map.set` semantics on one key-value pair: if the key is
already present, the value at its existing position is replaced; otherwise
the pair is appended.  This is exactly the insertion-order behaviour of a
JavaScript `Map`. -/
def jsMapInsert (m : List (Int × Pokemon)) (k : Int) (v : Pokemon) :
    List (Int × Pokemon) :=
  if m.any (fun p => p.1 == k) then
    m.map (fun p => if p.1 == k then (k, v) else p)
  else
    m ++ [(k, v)]

/-- `new Map(newData.map((item) => [item.id, item]))`: fold the list into a
JavaScript map keyed by `id`. -/
def jsMapOfList (l : List Pokemon) : List (Int × Pokemon) :=
  l.foldl (fun m item => jsMapInsert m item.id item) []

/-- `Array.from(map.values())`. -/
def jsMapValues (m : List (Int × Pokemon)) : List (Pokemon) :=
  m.map Prod.snd

/-- The ordering used by the comparator `(a, b) => a.id - b.id`. -/
def leId (a b : Pokemon) : Prop := a.id ≤ b.id

instance : DecidableRel leId := fun a b => inferInstanceAs (Decidable (a.id ≤ b.id))

instance : IsTotal Pokemon leId := ⟨fun a b => Int.le_total a.id b.id⟩

instance : IsTrans Pokemon leId := ⟨fun _ _ _ h1 h2 => Int.le_trans h1 h2⟩

/-- Strict version of `leId`; antisymmetric, hence sorted lists for it are
unique up to permutation. -/
def ltId (a b : Pokemon) : Prop := a.id < b.id

instance : IsAntisymm Pokemon ltId :=
  ⟨fun _ _ h1 h2 => absurd (Int.lt_trans h1 h2) (lt_irrefl _)⟩

/-- `uniqueData.sort((a, b) => a.id - b.id)`: sort ascending by id. -/
def sortById (l : List Pokemon) : List Pokemon :=
  l.insertionSort leId

/-- The functional update performed by `setPokemonData` on page-fetch
success (lines 271–278): append the fetched page to the previous data,
deduplicate by id through a JavaScript `Map` (later entries win), project
the map back to a sequence and sort ascending by id. -/
def mergePokemon (existing incoming : List Pokemon) : List Pokemon :=
  let newData := existing ++ incoming
  let uniqueData := jsMapValues (jsMapOfList newData)
  sortById uniqueData

/-- The last element of `l` whose id is `k`, if any: this is the value a
JavaScript `Map` built from `l` (keyed by id) holds at key `k`. -/
def lastWithId : List Pokemon → Int → Option Pokemon
  | [], _ => none
  | p :: t, k =>
    match lastWithId t k with
    | some q => some q
    | none => if p.id = k then some p else none

/-! ## Lemmas about the JavaScript-map embedding -/

theorem mem_jsMapInsert {m : List (Int × Pokemon)} {k j : Int}
    {v w : Pokemon} :
    (k, v) ∈ jsMapInsert m j w ↔ (k = j ∧ v = w) ∨ ((k, v) ∈ m ∧ k ≠ j) := by
  unfold jsMapInsert
  split
  · next hany =>
    rw [List.any_eq_true] at hany
    obtain ⟨p, hp, hpk⟩ := hany
    rw [beq_iff_eq] at hpk
    rw [List.mem_map]
    constructor
    · rintro ⟨q, hq, hqe⟩
      by_cases hqj : q.1 = j
      · simp only [hqj, beq_self_eq_true, if_true, Prod.mk.injEq] at hqe
        exact Or.inl ⟨hqe.1.symm, hqe.2.symm⟩
      · simp only [beq_iff_eq, hqj, if_false] at hqe
        subst hqe
        exact Or.inr ⟨hq, hqj⟩
    · rintro (⟨rfl, rfl⟩ | ⟨hmem, hne⟩)
      · exact ⟨p, hp, by simp [hpk]⟩
      · exact ⟨(k, v), hmem, by simp [hne]⟩
  · next hany =>
    rw [List.any_eq_true] at hany
    push_neg at hany
    rw [List.mem_append, List.mem_singleton, Prod.mk.injEq]
    constructor
    · rintro (hmem | ⟨rfl, rfl⟩)
      · refine Or.inr ⟨hmem, fun hkj => ?_⟩
        have := hany (k, v) hmem
        exact this (by simp [hkj])
      · exact Or.inl ⟨rfl, rfl⟩
    · rintro (⟨rfl, rfl⟩ | ⟨hmem, _⟩)
      · exact Or.inr ⟨rfl, rfl⟩
      · exact Or.inl hmem

theorem keys_jsMapInsert (m : List (Int × Pokemon)) (j : Int) (w : Pokemon) :
    (jsMapInsert m j w).map Prod.fst =
      if m.any (fun p => p.1 == j) then m.map Prod.fst
      else m.map Prod.fst ++ [j] := by
  unfold jsMapInsert
  split
  · next h =>
    rw [List.map_map]
    apply List.map_congr_left
    intro p _
    by_cases hpj : p.1 = j
    · simp [hpj]
    · simp [hpj]
  · next h =>
    rw [List.map_append]
    rfl

theorem not_hasKey_iff {m : List (Int × Pokemon)} {j : Int} :
    (m.any (fun p => p.1 == j) = false) ↔ j ∉ m.map Prod.fst := by
  rw [← Bool.not_eq_true, List.any_eq_true]
  push_neg
  constructor
  · intro h hj
    rw [List.mem_map] at hj
    obtain ⟨p, hp, hpj⟩ := hj
    exact h p hp (by simp [hpj])
  · intro h p hp hpj
    rw [beq_iff_eq] at hpj
    exact h (List.mem_map.2 ⟨p, hp, hpj⟩)

/-- Keys of the fold stay duplicate-free. -/
theorem nodup_keys_foldl (l : List Pokemon) :
    ∀ m : List (Int × Pokemon), (m.map Prod.fst).Nodup →
      ((l.foldl (fun m item => jsMapInsert m item.id item) m).map Prod.fst).Nodup := by
  induction l with
  | nil => intro m hm; exact hm
  | cons a t ih =>
    intro m hm
    rw [List.foldl_cons]
    apply ih
    rw [keys_jsMapInsert]
    split
    · exact hm
    · next h =>
      rw [List.nodup_append]
      refine ⟨hm, List.nodup_singleton _, ?_⟩
      intro x hx hx1
      rw [List.mem_singleton] at hx1
      subst hx1
      exact (not_hasKey_iff.1 (Bool.not_eq_true _ ▸ h)) hx

theorem nodup_keys_jsMapOfList (l : List Pokemon) :
    ((jsMapOfList l).map Prod.fst).Nodup :=
  nodup_keys_foldl l [] List.nodup_nil

theorem lastWithId_nil (k : Int) : lastWithId [] k = none := rfl

theorem lastWithId_cons (a : Pokemon) (t : List Pokemon) (k : Int) :
    lastWithId (a :: t) k =
      match lastWithId t k with
      | some q => some q
      | none => if a.id = k then some a else none := rfl

/-- Membership in the fold, characterized by the last occurrence of the key. -/
theorem mem_foldl_iff (l : List Pokemon) :
    ∀ (m : List (Int × Pokemon)) (k : Int) (v : Pokemon),
      (k, v) ∈ l.foldl (fun m item => jsMapInsert m item.id item) m ↔
        (lastWithId l k = some v ∨ (lastWithId l k = none ∧ (k, v) ∈ m)) := by
  induction l with
  | nil =>
    intro m k v
    simp [lastWithId]
  | cons a t ih =>
    intro m k v
    rw [List.foldl_cons, ih, lastWithId_cons]
    cases htk : lastWithId t k with
    | some q => simp
    | none =>
      by_cases hak : a.id = k
      · rw [if_pos hak]
        simp only [mem_jsMapInsert, hak]
        constructor
        · rintro (h | ⟨_, (⟨_, rfl⟩ | ⟨_, hne⟩)⟩)
          · exact absurd h (by simp)
          · exact Or.inl rfl
          · exact absurd rfl hne
        · rintro (hv | ⟨hv, _⟩)
          · rw [Option.some.injEq] at hv
            exact Or.inr ⟨trivial, Or.inl ⟨trivial, hv.symm⟩⟩
          · exact absurd hv (by simp)
      · rw [if_neg hak]
        simp only [mem_jsMapInsert]
        constructor
        · rintro (h | ⟨_, (⟨hk, _⟩ | ⟨hv, _⟩)⟩)
          · exact absurd h (by simp)
          · exact absurd hk.symm hak
          · exact Or.inr ⟨trivial, hv⟩
        · rintro (hv | ⟨_, hv⟩)
          · exact absurd hv (by simp)
          · exact Or.inr ⟨trivial, Or.inr ⟨hv, fun hkj => hak hkj.symm⟩⟩

theorem mem_jsMapOfList_iff {l : List Pokemon} {k : Int} {v : Pokemon} :
    (k, v) ∈ jsMapOfList l ↔ lastWithId l k = some v := by
  rw [jsMapOfList, mem_foldl_iff]
  simp

/-! ## Lemmas about `lastWithId` -/

theorem lastWithId_mem {l : List Pokemon} {k : Int} {v : Pokemon}
    (h : lastWithId l k = some v) : v ∈ l ∧ v.id = k := by
  induction l with
  | nil => exact absurd h (by simp [lastWithId])
  | cons a t ih =>
    unfold lastWithId at h
    cases htk : lastWithId t k with
    | some q =>
      rw [htk, Option.some.injEq] at h
      subst h
      obtain ⟨hm, hid⟩ := ih htk
      exact ⟨List.mem_cons_of_mem a hm, hid⟩
    | none =>
      rw [htk] at h
      by_cases hak : a.id = k
      · rw [if_pos hak, Option.some.injEq] at h
        subst h
        exact ⟨List.mem_cons_self a t, hak⟩
      · rw [if_neg hak] at h
        exact absurd h (by simp)

theorem lastWithId_isSome_of_mem {l : List Pokemon} {v : Pokemon}
    (h : v ∈ l) : ∃ w, lastWithId l v.id = some w := by
  induction l with
  | nil => exact absurd h (List.not_mem_nil v)
  | cons a t ih =>
    rw [lastWithId_cons]
    cases htk : lastWithId t v.id with
    | some q => exact ⟨q, rfl⟩
    | none =>
      rcases List.mem_cons.1 h with heq | hvt
      · subst heq
        exact ⟨v, by rw [if_pos rfl]⟩
      · obtain ⟨w, hw⟩ := ih hvt
        rw [hw] at htk
        exact absurd htk (by simp)

theorem lastWithId_append (A B : List Pokemon) (k : Int) :
    lastWithId (A ++ B) k =
      match lastWithId B k with
      | some v => some v
      | none => lastWithId A k := by
  induction A with
  | nil =>
    rw [List.nil_append]
    cases lastWithId B k with
    | some v => rfl
    | none => rfl
  | cons a t ih =>
    rw [List.cons_append, lastWithId_cons, lastWithId_cons, ih]
    cases lastWithId B k with
    | some v => rfl
    | none => rfl

/-- Values of the id-keyed map of `l`, characterized by `lastWithId`. -/
theorem mem_jsMapValues_iff {l : List Pokemon} {x : Pokemon} :
    x ∈ jsMapValues (jsMapOfList l) ↔ lastWithId l x.id = some x := by
  rw [jsMapValues, List.mem_map]
  constructor
  · rintro ⟨p, hp, rfl⟩
    have hp' : (p.1, p.2) ∈ jsMapOfList l := hp
    rw [mem_jsMapOfList_iff] at hp'
    have hid := (lastWithId_mem hp').2
    rw [← hid] at hp'
    exact hp'
  · intro h
    exact ⟨(x.id, x), mem_jsMapOfList_iff.2 h, rfl⟩

/-- The projected values of the id-keyed map have duplicate-free ids. -/
theorem nodup_ids_jsMapValues (l : List Pokemon) :
    ((jsMapValues (jsMapOfList l)).map Pokemon.id).Nodup := by
  rw [jsMapValues, List.map_map]
  have hcongr : (jsMapOfList l).map (Pokemon.id ∘ Prod.snd) =
      (jsMapOfList l).map Prod.fst := by
    apply List.map_congr_left
    intro p hp
    have hp' : (p.1, p.2) ∈ jsMapOfList l := hp
    rw [mem_jsMapOfList_iff] at hp'
    exact (lastWithId_mem hp').2
  rw [hcongr]
  exact nodup_keys_jsMapOfList l

/-- In a list with duplicate-free ids, `lastWithId` finds each member at its
own id. -/
theorem lastWithId_of_mem_nodup {l : List Pokemon} {v : Pokemon}
    (hnd : (l.map Pokemon.id).Nodup) (h : v ∈ l) :
    lastWithId l v.id = some v := by
  induction l with
  | nil => exact absurd h (List.not_mem_nil v)
  | cons a t ih =>
    rw [List.map_cons, List.nodup_cons] at hnd
    rw [lastWithId_cons]
    rcases List.mem_cons.1 h with rfl | hvt
    · cases htk : lastWithId t v.id with
      | some q =>
        obtain ⟨hq, hqid⟩ := lastWithId_mem htk
        exact absurd (hqid ▸ List.mem_map_of_mem Pokemon.id hq) hnd.1
      | none => rw [if_pos rfl]
    · rw [ih hnd.2 hvt]

/-! ## The merge performed on page-fetch success -/

theorem sortById_perm (l : List Pokemon) : List.Perm (sortById l) l :=
  List.perm_insertionSort leId l

theorem sortById_sorted (l : List Pokemon) : List.Sorted leId (sortById l) :=
  List.sorted_insertionSort leId l

/-- Membership in the merged store: exactly the last occurrence of each id in
`existing ++ incoming` survives. -/
theorem mem_mergePokemon_iff {existing incoming : List Pokemon} {x : Pokemon} :
    x ∈ mergePokemon existing incoming ↔
      lastWithId (existing ++ incoming) x.id = some x := by
  rw [mergePokemon]
  rw [(sortById_perm _).mem_iff, mem_jsMapValues_iff]

theorem nodup_ids_mergePokemon (existing incoming : List Pokemon) :
    ((mergePokemon existing incoming).map Pokemon.id).Nodup := by
  rw [mergePokemon]
  exact ((sortById_perm _).map Pokemon.id).nodup_iff.2
    (nodup_ids_jsMapValues (existing ++ incoming))

theorem nodup_mergePokemon (existing incoming : List Pokemon) :
    (mergePokemon existing incoming).Nodup :=
  (nodup_ids_mergePokemon existing incoming).of_map Pokemon.id

theorem sorted_le_mergePokemon (existing incoming : List Pokemon) :
    List.Sorted leId (mergePokemon existing incoming) :=
  sortById_sorted _

/-- The merged store is even strictly sorted by id. -/
theorem sorted_lt_mergePokemon (existing incoming : List Pokemon) :
    List.Sorted ltId (mergePokemon existing incoming) := by
  have hle : List.Pairwise leId (mergePokemon existing incoming) :=
    sorted_le_mergePokemon existing incoming
  have hne : List.Pairwise (fun a b : Pokemon => a.id ≠ b.id)
      (mergePokemon existing incoming) :=
    List.pairwise_map.1 (nodup_ids_mergePokemon existing incoming)
  exact (hle.and hne).imp (fun h => lt_of_le_of_ne h.1 h.2)

/-- Entities used in concrete scenarios: only the id and name matter. -/
def mkPk (i : Int) (n : String) : Pokemon :=
  { id := i, name := n, types := [], moves := [], sprite := "", shinySprite := "" }

/-- The page of the C3 scenario: ids arrive as `[4, 1, 25, 7]`. -/
def page1Ex : List Pokemon :=
  [mkPk 4 "charmander", mkPk 1 "bulbasaur", mkPk 25 "pikachu", mkPk 7 "squirtle"]

/-- C1: the merge performed on page-fetch success yields an output with no
two entries sharing an id, and on an id collision any surviving entry whose
id occurs in the incoming sequence comes from the incoming sequence — the
incoming entity replaced the existing one instead of being duplicated. -/
theorem merge_nodup_incoming_wins (existing incoming : List Pokemon) :
    ((mergePokemon existing incoming).map Pokemon.id).Nodup ∧
      ∀ y ∈ incoming, ∀ x ∈ mergePokemon existing incoming,
        x.id = y.id → x ∈ incoming := by
  refine ⟨nodup_ids_mergePokemon existing incoming, ?_⟩
  intro y hy x hx hid
  rw [mem_mergePokemon_iff, lastWithId_append] at hx
  obtain ⟨w, hw⟩ := lastWithId_isSome_of_mem hy
  rw [hid, hw] at hx
  have hx' : some w = some x := hx
  obtain rfl : w = x := Option.some.inj hx'
  exact (lastWithId_mem hw).1

/-- Witness for `merge_nodup_incoming_wins`: entity id 1 fetched again with
another name; the surviving entry is the incoming one. -/
theorem merge_nodup_incoming_wins_witness :
    mkPk 1 "bulbasaur-new" ∈ [mkPk 1 "bulbasaur-new"]
      ∧ mkPk 1 "bulbasaur-new" ∈ mergePokemon [mkPk 1 "bulbasaur-old"] [mkPk 1 "bulbasaur-new"]
      ∧ mkPk 1 "bulbasaur-new" ∈ [mkPk 1 "bulbasaur-new"] :=
  ⟨by decide, by decide,
    (merge_nodup_incoming_wins [mkPk 1 "bulbasaur-old"] [mkPk 1 "bulbasaur-new"]).2
      (mkPk 1 "bulbasaur-new") (by decide) (mkPk 1 "bulbasaur-new") (by decide) rfl⟩

/-- C3: the merged output is sorted ascending by id, whatever the order of
either input; merging the page with ids `[4, 1, 25, 7]` into an empty store
yields the id order `[1, 4, 7, 25]`. -/
theorem merge_sorted_ascending (existing incoming : List Pokemon) :
    List.Sorted leId (mergePokemon existing incoming)
      ∧ (mergePokemon [] page1Ex).map Pokemon.id = [1, 4, 7, 25] :=
  ⟨sorted_le_mergePokemon existing incoming, by decide⟩

/-- C4: merging the same incoming sequence twice yields the same store as
merging it once. -/
theorem merge_idempotent (existing incoming : List Pokemon) :
    mergePokemon (mergePokemon existing incoming) incoming =
      mergePokemon existing incoming := by
  apply List.eq_of_perm_of_sorted (r := ltId) ?_
    (sorted_lt_mergePokemon _ _) (sorted_lt_mergePokemon _ _)
  rw [List.perm_ext_iff_of_nodup (nodup_mergePokemon _ _) (nodup_mergePokemon _ _)]
  intro x
  rw [mem_mergePokemon_iff, mem_mergePokemon_iff, lastWithId_append,
    lastWithId_append]
  cases hi : lastWithId incoming x.id with
  | some q => exact Iff.rfl
  | none =>
    show lastWithId (mergePokemon existing incoming) x.id = some x ↔
      lastWithId existing x.id = some x
    constructor
    · intro h
      have := mem_mergePokemon_iff.1 (lastWithId_mem h).1
      rw [lastWithId_append, hi] at this
      exact this
    · intro h
      have hx : x ∈ mergePokemon existing incoming := by
        rw [mem_mergePokemon_iff, lastWithId_append, hi]
        exact h
      exact lastWithId_of_mem_nodup (nodup_ids_mergePokemon _ _) hx

/-- C10: when the incoming sequence itself contains several entities with
the same id, the merged store keeps exactly one entry for that id: the last
occurrence inside the incoming sequence. -/
theorem merge_intrabatch_last_wins (existing incoming : List Pokemon)
    (k : Int) (x1 x2 w : Pokemon)
    (_h1 : x1 ∈ incoming) (_h2 : x2 ∈ incoming) (_hne : x1 ≠ x2)
    (_hk1 : x1.id = k) (_hk2 : x2.id = k)
    (hw : lastWithId incoming k = some w) :
    w ∈ mergePokemon existing incoming ∧
      ∀ y ∈ mergePokemon existing incoming, y.id = k → y = w := by
  have hwid : w.id = k := (lastWithId_mem hw).2
  constructor
  · rw [mem_mergePokemon_iff, lastWithId_append, hwid, hw]
  · intro y hy hyk
    rw [mem_mergePokemon_iff, lastWithId_append, hyk, hw] at hy
    have hy' : some w = some y := hy
    exact (Option.some.inj hy').symm

/-- Witness for `merge_intrabatch_last_wins`: the incoming page carries id 1
twice; the second occurrence survives. -/
theorem merge_intrabatch_last_wins_witness :
    mkPk 1 "first" ∈ [mkPk 1 "first", mkPk 1 "second"]
      ∧ mkPk 1 "second" ∈ [mkPk 1 "first", mkPk 1 "second"]
      ∧ mkPk 1 "first" ≠ mkPk 1 "second"
      ∧ lastWithId [mkPk 1 "first", mkPk 1 "second"] 1 = some (mkPk 1 "second")
      ∧ mkPk 1 "second" ∈ mergePokemon [] [mkPk 1 "first", mkPk 1 "second"] :=
  ⟨by decide, by decide, by decide, by decide,
    (merge_intrabatch_last_wins [] [mkPk 1 "first", mkPk 1 "second"] 1
      (mkPk 1 "first") (mkPk 1 "second") (mkPk 1 "second")
      (by decide) (by decide) (by decide) rfl rfl (by decide)).1⟩

/-! ## The page-fetch pipeline and the component state -/

/-- One element of `data.results` of the summary endpoint: `{name, url}`. -/
structure SummaryItem where
  name : String
  url : String
deriving DecidableEq, Repr

/-- One element of `details.moves`: the nested `move.move` reference
`{name, url}` (only the url is consumed). -/
structure MoveRef where
  name : String
  url : String
deriving DecidableEq, Repr

/-- The part of the per-move endpoint response that is consumed:
`moveDetails.name` and `moveDetails.type.name`. -/
structure MoveDetail where
  name : String
  typeName : String
deriving DecidableEq, Repr

/-- The part of the per-entity detail endpoint response that is consumed. -/
structure PokemonDetail where
  id : Int
  name : String
  types : List TypeRef
  moves : List MoveRef
  sprite : String
  shinySprite : String
deriving DecidableEq, Repr

/-- The network oracle for one page fetch: the summary request and the two
families of sub-requests, keyed by url.  `none` models a transport or parse
failure (a rejected promise, caught by the `try`/`catch`). -/
structure Network where
  summary : Option (List SummaryItem)
  detail : String → Option PokemonDetail
  moveDetail : String → Option MoveDetail

/-- `Promise.all`: succeeds with every result when all succeed, fails as a
whole when any sub-promise fails. -/
def promiseAll {α : Type} : List (Option α) → Option (List α)
  | [] => some []
  | none :: _ => none
  | some a :: rest =>
    match promiseAll rest with
    | none => none
    | some as => some (a :: as)

/-- Resolution of one move reference (the inner `map` of `fetchPokemon`):
fetch `move.move.url` and keep `{name, type, url}`. -/
def resolveMove (net : Network) (m : MoveRef) : Option PokeMove :=
  match net.moveDetail m.url with
  | none => none
  | some md => some { name := md.name, type := md.typeName, url := m.url }

/-- Resolution of one summary item (the outer `map` of `fetchPokemon`):
fetch the detail record, then concurrently resolve the first three move
references, and build the `Pokemon` value. -/
def resolvePokemon (net : Network) (item : SummaryItem) : Option Pokemon :=
  match net.detail item.url with
  | none => none
  | some d =>
    match promiseAll ((d.moves.take 3).map (resolveMove net)) with
    | none => none
    | some mvs =>
      some { id := d.id, name := d.name, types := d.types, moves := mvs,
             sprite := d.sprite, shinySprite := d.shinySprite }

/-- The component state owned by `Component`: accumulated entities, loading
flag, error message, has-more flag and page cursor. -/
structure AppState where
  pokemonData : List Pokemon
  loading : Bool
  error : Option String
  hasMore : Bool
  page : Nat
deriving DecidableEq, Repr

/-- The error message set by the `catch` of `fetchPokemon`. -/
def fetchErrorMessage : String :=
  "Failed to fetch Pokémon data. Please try again later."

/-- One run of `fetchPokemon` (lines 226–284) against the network oracle:
set the loading flag, request the summary list; on failure anywhere set the
error message and clear loading; on an empty summary clear "has more" and
return early (the early `return` skips `setLoading(false)`); otherwise
resolve every entity concurrently and merge the page into the store. -/
def fetchPokemonStep (s : AppState) (net : Network) : AppState :=
  let s1 : AppState := { s with loading := true }
  match net.summary with
  | none => { s1 with error := some fetchErrorMessage, loading := false }
  | some results =>
    if results.length = 0 then
      { s1 with hasMore := false }
    else
      match promiseAll (results.map (resolvePokemon net)) with
      | none => { s1 with error := some fetchErrorMessage, loading := false }
      | some details =>
        { s1 with pokemonData := mergePokemon s1.pokemonData details,
                  loading := false }

/-- One visibility event of the scroll sentinel (`lastPokemonElementRef`,
lines 294–307): the ref callback refuses to attach while a fetch is in
flight, and an attached observer advances the page cursor only when the
last card intersects the viewport and "has more" is still set. -/
def sentinelEvent (s : AppState) (isIntersecting : Bool) : AppState :=
  if s.loading then s
  else if isIntersecting && s.hasMore then { s with page := s.page + 1 }
  else s

/-- What the component returns, by branch: the full-screen loader, the
full-screen error, or the card grid (whose trailing "Loading more Pokémon…"
block is governed by the loading flag). -/
inductive RenderView where
  | loadingScreen
  | errorScreen (msg : String)
  | grid (cards : List Pokemon) (loadingMore : Bool)
deriving DecidableEq, Repr

/-- The early-return structure of `Component` (lines 349–411): while
`loading` is set the full-screen loader replaces everything; otherwise an
error, when present, replaces everything; otherwise the grid of accumulated
cards is rendered. -/
def renderRoot (s : AppState) : RenderView :=
  if s.loading then RenderView.loadingScreen
  else
    match s.error with
    | some msg => RenderView.errorScreen msg
    | none => RenderView.grid s.pokemonData s.loading

theorem promiseAll_nil {α : Type} : promiseAll ([] : List (Option α)) = some [] :=
  rfl

theorem promiseAll_cons_none {α : Type} (rest : List (Option α)) :
    promiseAll (none :: rest) = none :=
  rfl

theorem promiseAll_cons_some {α : Type} (a : α) (rest : List (Option α)) :
    promiseAll (some a :: rest) =
      match promiseAll rest with
      | none => none
      | some as => some (a :: as) :=
  rfl

/-- `Promise.all` fails as soon as any mapped sub-promise fails. -/
theorem promiseAll_map_none {α β : Type} (f : α → Option β) {l : List α}
    {x : α} (hx : x ∈ l) (hf : f x = none) :
    promiseAll (l.map f) = none := by
  induction l with
  | nil => exact absurd hx (List.not_mem_nil x)
  | cons a t ih =>
    rw [List.map_cons]
    rcases List.mem_cons.1 hx with heq | hxt
    · subst heq
      rw [hf, promiseAll_cons_none]
    · cases ha : f a with
      | none => rw [promiseAll_cons_none]
      | some b =>
        rw [promiseAll_cons_some, ih hxt]

/-- C2: whenever any sub-request of a page fetch fails — the summary list,
a per-entity detail, or a per-move resolution — the accumulated store is
left unchanged (no partial entities are admitted), the error state is set
to the user-visible message, and the "has more" flag is untouched: the
failure is a single page-level error, not a partial-page result. -/
theorem fetch_failure_leaves_store_unchanged (s : AppState) (net : Network)
    (hfail :
      net.summary = none ∨
      ∃ results, net.summary = some results ∧
        ((∃ item ∈ results, net.detail item.url = none) ∨
         (∃ item ∈ results, ∃ d, net.detail item.url = some d ∧
            ∃ m ∈ d.moves.take 3, net.moveDetail m.url = none))) :
    (fetchPokemonStep s net).pokemonData = s.pokemonData ∧
    (fetchPokemonStep s net).error = some fetchErrorMessage ∧
    (fetchPokemonStep s net).hasMore = s.hasMore := by
  rcases hfail with hsum | ⟨results, hsum, hsub⟩
  · simp [fetchPokemonStep, hsum]
  · have hitem : ∃ item ∈ results, resolvePokemon net item = none := by
      rcases hsub with ⟨item, hmem, hd⟩ | ⟨item, hmem, d, hd, m, hmtake, hm⟩
      · exact ⟨item, hmem, by simp [resolvePokemon, hd]⟩
      · have hrm : resolveMove net m = none := by simp [resolveMove, hm]
        have hin : promiseAll ((d.moves.take 3).map (resolveMove net)) = none :=
          promiseAll_map_none (resolveMove net) hmtake hrm
        rw [List.map_take] at hin
        exact ⟨item, hmem, by simp [resolvePokemon, hd, hin]⟩
    obtain ⟨item, hmem, hr⟩ := hitem
    have hne : ¬(results.length = 0) := by
      intro h0
      rw [List.length_eq_zero] at h0
      subst h0
      exact absurd hmem (List.not_mem_nil item)
    have hPA : promiseAll (results.map (resolvePokemon net)) = none :=
      promiseAll_map_none (resolvePokemon net) hmem hr
    simp [fetchPokemonStep, hsum, hne, hPA]

/-- An idle initial state: empty store, not loading, no error. -/
def sIdleEx : AppState :=
  { pokemonData := [], loading := false, error := none, hasMore := true,
    page := 1 }

def itemEx : SummaryItem := { name := "bulbasaur", url := "u1" }

def moveRefEx : MoveRef := { name := "tackle", url := "m1" }

def detailEx : PokemonDetail :=
  { id := 1, name := "bulbasaur", types := [], moves := [moveRefEx],
    sprite := "", shinySprite := "" }

/-- A network in which the summary and the detail succeed but every
per-move request fails. -/
def netMoveFailEx : Network :=
  { summary := some [itemEx],
    detail := fun u => if u = itemEx.url then some detailEx else none,
    moveDetail := fun _ => none }

/-- Witness for `fetch_failure_leaves_store_unchanged`: one failing move
resolution inside an otherwise successful page leaves the store unchanged
and sets the error message. -/
theorem fetch_failure_leaves_store_unchanged_witness :
    (fetchPokemonStep sIdleEx netMoveFailEx).pokemonData = sIdleEx.pokemonData
      ∧ (fetchPokemonStep sIdleEx netMoveFailEx).error = some fetchErrorMessage :=
  have hfail : netMoveFailEx.summary = none ∨
      ∃ results, netMoveFailEx.summary = some results ∧
        ((∃ item ∈ results, netMoveFailEx.detail item.url = none) ∨
         (∃ item ∈ results, ∃ d, netMoveFailEx.detail item.url = some d ∧
            ∃ m ∈ d.moves.take 3, netMoveFailEx.moveDetail m.url = none)) :=
    Or.inr ⟨[itemEx], rfl,
      Or.inr ⟨itemEx, List.mem_singleton.2 rfl, detailEx, by decide,
        moveRefEx, by decide, rfl⟩⟩
  ⟨(fetch_failure_leaves_store_unchanged sIdleEx netMoveFailEx hfail).1,
   (fetch_failure_leaves_store_unchanged sIdleEx netMoveFailEx hfail).2.1⟩

/-- C8: a page fetch whose summary list is empty clears "has more", leaves
the store and the error state untouched (a distinct outcome, not an
error), and afterwards no sentinel visibility event can advance the page
cursor — no further automatic fetch is triggered. -/
theorem empty_page_stops_pagination (s : AppState) (net : Network)
    (h : net.summary = some []) :
    (fetchPokemonStep s net).hasMore = false ∧
    (fetchPokemonStep s net).pokemonData = s.pokemonData ∧
    (fetchPokemonStep s net).error = s.error ∧
    ∀ b : Bool, sentinelEvent (fetchPokemonStep s net) b = fetchPokemonStep s net := by
  have hstep : fetchPokemonStep s net =
      { s with loading := true, hasMore := false } := by
    simp [fetchPokemonStep, h]
  rw [hstep]
  refine ⟨rfl, rfl, rfl, fun b => ?_⟩
  simp [sentinelEvent]

/-- A network whose summary request succeeds with zero items. -/
def netEmptyEx : Network :=
  { summary := some [], detail := fun _ => none, moveDetail := fun _ => none }

/-- Witness for `empty_page_stops_pagination` at a concrete state and
network. -/
theorem empty_page_stops_pagination_witness :
    netEmptyEx.summary = some []
      ∧ (fetchPokemonStep sIdleEx netEmptyEx).hasMore = false
      ∧ sentinelEvent (fetchPokemonStep sIdleEx netEmptyEx) true =
          fetchPokemonStep sIdleEx netEmptyEx :=
  ⟨rfl, (empty_page_stops_pagination sIdleEx netEmptyEx rfl).1,
   (empty_page_stops_pagination sIdleEx netEmptyEx rfl).2.2.2 true⟩

/-- A state after one successful page: the store is non-empty and no fetch
is in flight. -/
def sLoadedEx : AppState :=
  { pokemonData := [mkPk 25 "pikachu"], loading := false, error := none,
    hasMore := true, page := 2 }

/-- C9 (code bug, evaluation at the failing input): while a subsequent-page
fetch is outstanding over a non-empty store, the component returns the
full-screen loader and does not render the already-fetched cards (the
in-grid "Loading more Pokémon…" block is unreachable); and after a fetch
completes with an empty result the loading flag is still set, so the
loader keeps being shown although no fetch is outstanding. -/
theorem loading_screen_replaces_cards_bug :
    renderRoot { sLoadedEx with loading := true } = RenderView.loadingScreen
      ∧ (fetchPokemonStep sLoadedEx netEmptyEx).loading = true
      ∧ renderRoot (fetchPokemonStep sLoadedEx netEmptyEx) =
          RenderView.loadingScreen :=
  ⟨rfl, rfl, rfl⟩

/-! ## The type-detail overlay (`fetchTypeDetails` and `TypeModal`) -/

/-- A named reference `{name}` as returned inside each damage-relation
list. -/
structure NamedRef where
  name : String
deriving DecidableEq, Repr

/-- The `damage_relations` object of the type endpoint response. -/
structure RawDamageRelations where
  double_damage_from : List NamedRef
  double_damage_to : List NamedRef
  half_damage_from : List NamedRef
  half_damage_to : List NamedRef
  no_damage_from : List NamedRef
  no_damage_to : List NamedRef
deriving DecidableEq, Repr

/-- The part of the type endpoint response that is consumed. -/
structure RawTypeData where
  name : String
  damage_relations : RawDamageRelations
deriving DecidableEq, Repr

/-- The `Type` interface of the source (named `TypeDetail` here because
`Type` is reserved in Lean). -/
structure DamageRelations where
  doubleDamageFrom : List String
  doubleDamageTo : List String
  halfDamageFrom : List String
  halfDamageTo : List String
  noDamageFrom : List String
  noDamageTo : List String
deriving DecidableEq, Repr

structure TypeDetail where
  name : String
  damageRelations : DamageRelations
deriving DecidableEq, Repr

/-- `fetchTypeDetails` (lines 309–340): on success maps each of the six
`damage_relations` lists to its names; on failure the `catch` returns
`null`. -/
def fetchTypeDetails (resp : Option RawTypeData) : Option TypeDetail :=
  match resp with
  | none => none
  | some d =>
    some { name := d.name,
           damageRelations :=
             { doubleDamageFrom := d.damage_relations.double_damage_from.map NamedRef.name,
               doubleDamageTo := d.damage_relations.double_damage_to.map NamedRef.name,
               halfDamageFrom := d.damage_relations.half_damage_from.map NamedRef.name,
               halfDamageTo := d.damage_relations.half_damage_to.map NamedRef.name,
               noDamageFrom := d.damage_relations.no_damage_from.map NamedRef.name,
               noDamageTo := d.damage_relations.no_damage_to.map NamedRef.name } }

/-- `{list.join(", ") || "None"}`: the comma-joined list, or the falsy
fallback `"None"` when the joined string is empty. -/
def renderJoinOrNone (l : List String) : String :=
  let joined := String.intercalate ", " l
  if joined = "" then "None" else joined

/-- The relation sections actually rendered by `TypeModal` (lines 83–133),
as heading/body pairs, in document order.  The modal shows exactly four
sections: `doubleDamageFrom`, `doubleDamageTo`, `halfDamageFrom` and
`halfDamageTo`; the `noDamageFrom`/`noDamageTo` lists do not appear in the
markup. -/
def typeModalFields (t : TypeDetail) : List (String × String) :=
  [("Weaknesses:", renderJoinOrNone t.damageRelations.doubleDamageFrom),
   ("Strengths:", renderJoinOrNone t.damageRelations.doubleDamageTo),
   ("Resistances:", renderJoinOrNone t.damageRelations.halfDamageFrom),
   ("Not very effective against:", renderJoinOrNone t.damageRelations.halfDamageTo)]

/-- A water-like type response whose `no_damage_to` list carries a sentinel
name, so that its rendering would be recognizable anywhere in the modal. -/
def waterRawEx : RawTypeData :=
  { name := "water",
    damage_relations :=
      { double_damage_from := [⟨"grass"⟩, ⟨"electric"⟩],
        double_damage_to := [⟨"fire"⟩, ⟨"ground"⟩, ⟨"rock"⟩],
        half_damage_from := [⟨"fire"⟩, ⟨"water"⟩, ⟨"ice"⟩, ⟨"steel"⟩],
        half_damage_to := [⟨"water"⟩, ⟨"grass"⟩, ⟨"dragon"⟩],
        no_damage_from := [],
        no_damage_to := [⟨"sentinelNullified"⟩] } }

/-- The `TypeDetail` that `fetchTypeDetails` produces for `waterRawEx`. -/
def waterDetailEx : TypeDetail :=
  { name := "water",
    damageRelations :=
      { doubleDamageFrom := ["grass", "electric"],
        doubleDamageTo := ["fire", "ground", "rock"],
        halfDamageFrom := ["fire", "water", "ice", "steel"],
        halfDamageTo := ["water", "grass", "dragon"],
        noDamageFrom := [],
        noDamageTo := ["sentinelNullified"] } }

/-- C5 counterexample: the modal opened on a successfully fetched type
does not display six relation lists.  It renders four sections, and the
rendering of `noDamageTo` (here the recognizable string
`"sentinelNullified"`) appears nowhere among the displayed bodies, so the
`nullifiedTo` list — empty or not — is never shown. -/
theorem typeModal_six_lists_counterexample :
    fetchTypeDetails (some waterRawEx) = some waterDetailEx
      ∧ (typeModalFields waterDetailEx).length ≠ 6
      ∧ (typeModalFields waterDetailEx).length = 4
      ∧ renderJoinOrNone waterDetailEx.damageRelations.noDamageTo = "sentinelNullified"
      ∧ "sentinelNullified" ∉ (typeModalFields waterDetailEx).map Prod.snd := by
  refine ⟨by decide, by decide, by decide, by decide, by decide⟩

/-- C5 amended: on every successfully fetched type detail the modal
displays exactly four relation lists — `doubleDamageFrom` ("Weaknesses:"),
`doubleDamageTo` ("Strengths:"), `halfDamageFrom` ("Resistances:") and
`halfDamageTo` ("Not very effective against:") — each comma-joined with
`"None"` as the empty fallback; the `noDamageFrom`/`noDamageTo` lists are
fetched into the detail object but not displayed. -/
theorem typeModal_renders_four_lists (d : RawTypeData) (t : TypeDetail)
    (h : fetchTypeDetails (some d) = some t) :
    typeModalFields t =
      [("Weaknesses:",
          renderJoinOrNone (d.damage_relations.double_damage_from.map NamedRef.name)),
       ("Strengths:",
          renderJoinOrNone (d.damage_relations.double_damage_to.map NamedRef.name)),
       ("Resistances:",
          renderJoinOrNone (d.damage_relations.half_damage_from.map NamedRef.name)),
       ("Not very effective against:",
          renderJoinOrNone (d.damage_relations.half_damage_to.map NamedRef.name))]
      ∧ t.damageRelations.noDamageTo =
          d.damage_relations.no_damage_to.map NamedRef.name
      ∧ renderJoinOrNone [] = "None" := by
  simp only [fetchTypeDetails, Option.some.injEq] at h
  subst h
  exact ⟨rfl, rfl, by decide⟩

/-- Witness for `typeModal_renders_four_lists` at the water example. -/
theorem typeModal_renders_four_lists_witness :
    fetchTypeDetails (some waterRawEx) = some waterDetailEx
      ∧ typeModalFields waterDetailEx =
          [("Weaknesses:",
              renderJoinOrNone (waterRawEx.damage_relations.double_damage_from.map NamedRef.name)),
           ("Strengths:",
              renderJoinOrNone (waterRawEx.damage_relations.double_damage_to.map NamedRef.name)),
           ("Resistances:",
              renderJoinOrNone (waterRawEx.damage_relations.half_damage_from.map NamedRef.name)),
           ("Not very effective against:",
              renderJoinOrNone (waterRawEx.damage_relations.half_damage_to.map NamedRef.name))] :=
  ⟨by decide, (typeModal_renders_four_lists waterRawEx waterDetailEx (by decide)).1⟩

/-! ## Timed card effects (`moveTypeEffects`, `handleMoveClick`)

`handleMoveClick` (lines 444–452) sets the card's `activeEffect` and
schedules `setTimeout(() => setActiveEffect(null), 2000)`.  The timeout is
never cancelled, so every past click keeps a pending clear.  The model
below replays the clicks of one card in chronological order on the
single-threaded event loop: a click due at the same instant as a pending
timeout observes the timeout first, and its own set then overwrites the
cleared state, which is exactly what the fold does by dropping expired
timeouts and overwriting `activeEffect`. -/

/-- The `moveTypeEffects` record (lines 413–432): the fixed mapping from a
move's type to the shader preset name. -/
def moveTypeEffects (t : String) : Option String :=
  match t with
  | "normal" => some "rgbShift"
  | "fire" => some "duotone"
  | "water" => some "sinewave"
  | "electric" => some "rgbGlitch"
  | "grass" => some "hueShift"
  | "ice" => some "shine"
  | "fighting" => some "spring"
  | "poison" => some "slitScanTransition"
  | "ground" => some "halftone"
  | "flying" => some "warpTransition"
  | "psychic" => some "rainbow"
  | "bug" => some "pixelate"
  | "rock" => some "tritone"
  | "ghost" => some "glitch"
  | "dragon" => some "rgbShift"
  | "dark" => some "uvGradient"
  | "steel" => some "focusTransition"
  | "fairy" => some "pixelateTransition"
  | _ => none

/-- `moveTypeEffects[move.type] || "glitch"`: every mapped preset name is a
non-empty (truthy) string, so the fallback fires exactly on unmapped
types. -/
def effectFor (t : String) : String :=
  (moveTypeEffects t).getD "glitch"

/-- One ability click on a card: when it happened and the move's type. -/
structure EffectTrigger where
  time : Nat
  moveType : String
deriving DecidableEq, Repr

/-- The card's effect state: the `activeEffect` React state plus the clear
times of the still-pending (never cancelled) timeouts. -/
structure CardEffectState where
  activeEffect : Option String
  pending : List Nat
deriving DecidableEq, Repr

/-- Processing one click at its instant: pending timeouts that have already
fired (their clear was overwritten by this very click's set) are dropped,
the looked-up effect becomes active, and a fresh 2000-unit clear is
scheduled. -/
def stepTrigger (st : CardEffectState) (tr : EffectTrigger) : CardEffectState :=
  { activeEffect := some (effectFor tr.moveType),
    pending := st.pending.filter (fun c => tr.time < c) ++ [tr.time + 2000] }

/-- Replay a chronological list of clicks from the idle card. -/
def runTriggers (trs : List EffectTrigger) : CardEffectState :=
  trs.foldl stepTrigger { activeEffect := none, pending := [] }

/-- The effect displayed at query time `q`: replay the clicks due by `q`;
if any still-pending timeout has expired by `q`, its callback has set the
state back to `null`. -/
def activeEffectAt (trs : List EffectTrigger) (q : Nat) : Option String :=
  let st := runTriggers (trs.filter (fun tr => tr.time ≤ q))
  if st.pending.any (fun c => c ≤ q) then none else st.activeEffect

/-- What the card body shows: `activeEffect ? <VFXImg shader=…> :
<PokemonImage>` (lines 519–532). -/
inductive CardImage where
  | effected (shader : String)
  | staticImage
deriving DecidableEq, Repr

def cardImageView (ae : Option String) : CardImage :=
  match ae with
  | some e => CardImage.effected e
  | none => CardImage.staticImage

/-- C6: for an isolated ability activation at time `t0`, the shown effect
is the one the fixed mapping assigns to the move's type (the designated
fallback `"glitch"` for an unmapped type, e.g. `"sound"`; `"duotone"` for
`"fire"`), and the effected render is active exactly on the window
`[t0, t0 + 2000)` before reverting to the static image. -/
theorem effect_single_activation (t0 q : Nat) (mt : String) :
    cardImageView (activeEffectAt [{ time := t0, moveType := mt }] q) =
      (if t0 ≤ q ∧ q < t0 + 2000 then CardImage.effected (effectFor mt)
       else CardImage.staticImage)
    ∧ effectFor "fire" = "duotone"
    ∧ moveTypeEffects "sound" = none
    ∧ effectFor "sound" = "glitch" := by
  refine ⟨?_, by decide, by decide, by decide⟩
  by_cases h1 : t0 ≤ q
  · by_cases h2 : q < t0 + 2000
    · have h3 : ¬(t0 + 2000 ≤ q) := by omega
      simp [activeEffectAt, runTriggers, stepTrigger, cardImageView, h1, h2, h3]
    · have h3 : t0 + 2000 ≤ q := by omega
      simp [activeEffectAt, runTriggers, stepTrigger, cardImageView, h1, h2, h3]
  · have h2 : ¬(t0 ≤ q ∧ q < t0 + 2000) := fun hc => h1 hc.1
    simp [activeEffectAt, runTriggers, stepTrigger, cardImageView, h1, h2]

/-- C7 counterexample: clicks at `t = 0` (`fire`) and `t = 1000` (`water`).
The `water` effect is displayed from `t = 1000`, but at `t = 2500` — well
inside the 2000-unit window of the re-trigger — the first click's
uncancelled timeout (fired at `t = 2000`) has already reverted the card:
the re-trigger does **not** restart the revert timer. -/
theorem effect_retrigger_cut_short :
    activeEffectAt
        [{ time := 0, moveType := "fire" }, { time := 1000, moveType := "water" }]
        1500 = some "sinewave"
      ∧ activeEffectAt
          [{ time := 0, moveType := "fire" }, { time := 1000, moveType := "water" }]
          2500 = none
      ∧ 2500 < 1000 + 2000 := by
  refine ⟨by decide, by decide, by decide⟩

/-- C7 amended: at most one effect is active per card (a single state
cell), and a re-trigger replaces the displayed effect immediately (last
write wins, no queueing); but the earlier trigger's revert timer is not
cancelled, so the re-triggered effect is cleared when the earlier timer
expires, at `t0 + 2000` — before its own 2000 units have elapsed. -/
theorem effect_retrigger_amended (t0 t1 q : Nat) (m0 m1 : String)
    (h01 : t0 < t1) (h1w : t1 < t0 + 2000) :
    activeEffectAt
        [{ time := t0, moveType := m0 }, { time := t1, moveType := m1 }] q =
      (if t0 ≤ q ∧ q < t1 then some (effectFor m0)
       else if t1 ≤ q ∧ q < t0 + 2000 then some (effectFor m1)
       else none) := by
  by_cases h1 : t0 ≤ q
  · by_cases h2 : t1 ≤ q
    · by_cases h3 : q < t0 + 2000
      · have h4 : ¬(t0 + 2000 ≤ q) := by omega
        have h5 : ¬(t1 + 2000 ≤ q) := by omega
        have hq1 : ¬(q < t1) := by omega
        simp [activeEffectAt, runTriggers, stepTrigger, h1, h2, h3, h4, h5,
          hq1, h1w]
      · have h4 : t0 + 2000 ≤ q := by omega
        have hq1 : ¬(q < t1) := by omega
        simp [activeEffectAt, runTriggers, stepTrigger, h1, h2, h3, h4, hq1,
          h1w]
    · have h3 : ¬(t0 + 2000 ≤ q) := by omega
      have hq1 : q < t1 := by omega
      simp [activeEffectAt, runTriggers, stepTrigger, h1, h2, h3, hq1]
  · have h2 : ¬(t1 ≤ q) := by omega
    have hc1 : ¬(t0 ≤ q ∧ q < t1) := fun hc => h1 hc.1
    have hc2 : ¬(t1 ≤ q ∧ q < t0 + 2000) := fun hc => h2 hc.1
    simp [activeEffectAt, runTriggers, stepTrigger, h1, h2, hc1, hc2]

/-- Witness for `effect_retrigger_amended` at the counterexample timeline:
at `q = 2500` the amended description gives `none`. -/
theorem effect_retrigger_amended_witness :
    (0 < 1000) ∧ (1000 < 0 + 2000)
      ∧ activeEffectAt
          [{ time := 0, moveType := "fire" }, { time := 1000, moveType := "water" }]
          2500 =
        (if (0 ≤ 2500 ∧ 2500 < 1000) then some (effectFor "fire")
         else if (1000 ≤ 2500 ∧ 2500 < 0 + 2000) then some (effectFor "water")
         else none) :=
  ⟨by decide, by decide,
    effect_retrigger_amended 0 1000 2500 "fire" "water" (by decide) (by decide)⟩
